import Mathlib

/-!
Verification of the Hive RPC engine client
(`simulators/ethereum/engine/client/hive_rpc/hive_rpc.go`).

The Go file implements a stateful JSON-RPC client adapter: block-number
argument encoding, header lookup with a distinct not-found error, a
two-pass total-difficulty decode, JWT token minting for authenticated
engine calls, per-call request/response memoization ("call memory"),
and a per-account nonce cache.

The embedding below translates each function from the source.  Network
transport (the `rpc.CallContext` outcomes) and the JSON decoding of a
remote response are external to the repository, so every network-bound
function takes the transport outcome as an explicit argument
(`Except String _`); machine integers (`uint64` nonces) are `Nat` with
an explicit `% 2 ^ 64` where the source increments, and Go pointers
that may be nil are `Option`.
-/

namespace HiveRPC

/-- Block hashes (`common.Hash`); only compared for equality by the code
under study, so modelled as `Nat`. -/
abbrev Hash := Nat

/-- Account addresses (`common.Address`); only used as map keys. -/
abbrev Address := Nat

/-- The fields of `types.Header` that the code under study reads:
`Hash()`, `ParentHash` and `Number`.  `Hash()` is a function of the
header contents in go-ethereum; the code only compares it for equality,
so it is carried as a field. -/
structure Header where
  hash : Hash
  parentHash : Hash
  number : Int
deriving DecidableEq, Repr

/-- Errors surfaced by the client: a transport / RPC-level error
(carrying the underlying message) or the distinguished
`ethereum.NotFound` value. -/
inductive RpcError where
  | transport (msg : String)
  | notFound
deriving DecidableEq, Repr

/-- Function `HeaderByNumber` (hive_rpc.go lines 224-231).  The transport outcome
of `cEth.CallContext` on `eth_getBlockByNumber` is the argument: either
an error message, or an optional header (`nil` when the node answered
with an empty result).  The Go function returns the pair
`(header, err)`; when the call succeeded but the header is nil it
substitutes `ethereum.NotFound` for the error. -/
def HeaderByNumber (call : Except String (Option Header)) :
    Option Header × Option RpcError :=
  match call with
  | .error e => (none, some (.transport e))
  | .ok header =>
    match header with
    | none => (none, some .notFound)
    | some h => (some h, none)

/-! Section: block-number argument encoding (toBlockNumArg, lines 200-222) -/

/-- Sentinel `Pending = big.NewInt(-2)`. -/
def Pending : Int := -2

/-- Sentinel `Finalized = big.NewInt(-3)`. -/
def Finalized : Int := -3

/-- Sentinel `Safe = big.NewInt(-4)`. -/
def Safe : Int := -4

/-- Lower-case hexadecimal digit character for a value below 16, as
produced by `big.Int.Text(16)`. -/
def hexDigitChar : Nat → Char
  | 0 => '0'
  | 1 => '1'
  | 2 => '2'
  | 3 => '3'
  | 4 => '4'
  | 5 => '5'
  | 6 => '6'
  | 7 => '7'
  | 8 => '8'
  | 9 => '9'
  | 10 => 'a'
  | 11 => 'b'
  | 12 => 'c'
  | 13 => 'd'
  | 14 => 'e'
  | _ => 'f'

/-- Big-endian hexadecimal digits of a natural number with no leading
zero digit, as produced by `big.Int.Text(16)` for a positive value. -/
def natToHex (n : Nat) : List Char :=
  if n < 16 then [hexDigitChar n]
  else natToHex (n / 16) ++ [hexDigitChar (n % 16)]
decreasing_by exact Nat.div_lt_self (by omega) (by omega)

/-- Function `hexutil.EncodeBig` of go-ethereum: `"0x0"` for zero, `"0x" ++ minimal hex` for a
positive value and `"-0x" ++ minimal hex` of the absolute value for a
negative value. -/
def EncodeBig (n : Int) : String :=
  if n = 0 then "0x0"
  else if 0 < n then "0x" ++ String.mk (natToHex n.toNat)
  else "-0x" ++ String.mk (natToHex n.natAbs)

/-- Function `toBlockNumArg` (lines 208-222).  A nil `*big.Int` (the `Head`
sentinel) is `none`; the three negative sentinels are compared with
`Cmp`, i.e. numerically. -/
def toBlockNumArg (number : Option Int) : String :=
  match number with
  | none => "latest"
  | some n =>
    if n = Pending then "pending"
    else if n = Finalized then "finalized"
    else if n = Safe then "safe"
    else EncodeBig n

/-! Section: the nonce cache (GetNextAccountNonce, lines 332-360) -/

/-- Per-account cached state (lines 137-140): the head block hash under
which the nonce was last computed, and the nonce (`uint64`). -/
structure AccountTransactionInfo where
  PreviousBlock : Hash
  PreviousNonce : Nat
deriving DecidableEq, Repr

/-- The `accTxInfoMap` field: a map from account address to cached
info.  Go map semantics (at most one entry per key) modelled as an
association list whose update replaces in place. -/
abbrev AddrMap := List (Address × AccountTransactionInfo)

/-- Lookup in `accTxInfoMap` (`accTxInfo, ok := ec.accTxInfoMap[account]`). -/
def mapFind (m : AddrMap) (a : Address) : Option AccountTransactionInfo :=
  match m with
  | [] => none
  | (k, v) :: rest => if k = a then some v else mapFind rest a

/-- Store in `accTxInfoMap` (`ec.accTxInfoMap[account] = ...`), replacing
any existing entry for the key. -/
def mapSet (m : AddrMap) (a : Address) (v : AccountTransactionInfo) : AddrMap :=
  match m with
  | [] => [(a, v)]
  | (k, w) :: rest => if k = a then (k, v) :: rest else (k, w) :: mapSet rest a v

/-- Result of one `GetNextAccountNonce` call: the returned `uint64`
(Go returns `0` together with a non-nil error on failure), the returned
error, the cache after the call, and whether the authoritative
`NonceAt` lookup was performed. -/
structure GNANResult where
  nonce : Nat
  err : Option RpcError
  accTxInfoMap : AddrMap
  lookedUpNonce : Bool
deriving DecidableEq, Repr

/-- Method `GetNextAccountNonce` (lines 332-360).  `headCall` is the transport
outcome of the head lookup (`HeaderByNumber` with a nil number);
`nonceAt` gives the transport outcome of `ec.NonceAt(ctx, account, n)`
for a block number `n`.  The whole result is `none` exactly when the
Go code would dereference a nil `head` pointer (never, by
`HeaderByNumber`: see the C10 theorem).  The cached nonce is a
`uint64`, so its increment wraps at `2 ^ 64`. -/
def GetNextAccountNonce (m : AddrMap) (account : Address)
    (headCall : Except String (Option Header))
    (nonceAt : Int → Except String Nat) : Option GNANResult :=
  match HeaderByNumber headCall with
  | (_, some e) => some ⟨0, some e, m, false⟩
  | (headOpt, none) =>
    match headOpt with
    | none => none
    | some head =>
      match mapFind m account with
      | some accTxInfo =>
        if accTxInfo.PreviousBlock = head.hash ∨
            accTxInfo.PreviousBlock = head.parentHash then
          let newNonce := (accTxInfo.PreviousNonce + 1) % 2 ^ 64
          some ⟨newNonce, none, mapSet m account ⟨head.hash, newNonce⟩, false⟩
        else
          match nonceAt head.number with
          | .error e => some ⟨0, some (.transport e), m, true⟩
          | .ok nonce =>
            some ⟨nonce, none, mapSet m account ⟨head.hash, nonce⟩, true⟩
      | none =>
        match nonceAt head.number with
        | .error e => some ⟨0, some (.transport e), m, true⟩
        | .ok nonce =>
          some ⟨nonce, none, mapSet m account ⟨head.hash, nonce⟩, true⟩

/-! Section: engine call payload types.

The `api.*` payload types come from go-ethereum; the code under study
never inspects their contents, only stores and returns them, so each is
an opaque value carrying a `Nat`. -/

/-- Type `api.ForkchoiceStateV1`, contents opaque to this client. -/
structure ForkchoiceStateV1 where
  data : Nat
deriving DecidableEq, Repr

/-- Type `api.PayloadAttributesV1`, contents opaque to this client. -/
structure PayloadAttributesV1 where
  data : Nat
deriving DecidableEq, Repr

/-- Type `api.ForkChoiceResponse`, contents opaque to this client. -/
structure ForkChoiceResponse where
  data : Nat
deriving DecidableEq, Repr

/-- Go zero value of `api.ForkChoiceResponse` (`var result ...`). -/
instance : Inhabited ForkChoiceResponse := ⟨⟨0⟩⟩

/-- Type `api.ExecutableDataV1`, contents opaque to this client. -/
structure ExecutableDataV1 where
  data : Nat
deriving DecidableEq, Repr

/-- Go zero value of `api.ExecutableDataV1`. -/
instance : Inhabited ExecutableDataV1 := ⟨⟨0⟩⟩

/-- Type `api.PayloadStatusV1`, contents opaque to this client. -/
structure PayloadStatusV1 where
  data : Nat
deriving DecidableEq, Repr

/-- Go zero value of `api.PayloadStatusV1`. -/
instance : Inhabited PayloadStatusV1 := ⟨⟨0⟩⟩

/-- Type `api.PayloadID`, contents opaque to this client. -/
structure PayloadID where
  data : Nat
deriving DecidableEq, Repr

/-- Type `api.TransitionConfigurationV1`, contents opaque to this client. -/
structure TransitionConfigurationV1 where
  data : Nat
deriving DecidableEq, Repr

/-- Go zero value of `api.TransitionConfigurationV1`. -/
instance : Inhabited TransitionConfigurationV1 := ⟨⟨0⟩⟩

/-! Section: call memory and authenticated engine calls (lines 143-330) -/

/-- The mutable fields of `HiveRPCEngineClient` touched by the engine
call methods: the five call-memory pointers (lines 152-157, nil at
construction) and the Authorization header set on the engine RPC
connection by `PrepareAuthCallToken`.  Go pointer fields are `Option`;
the field name `latestPayloadStatusReponse` keeps the source's spelling. -/
structure ClientState where
  latestFcUStateSent : Option ForkchoiceStateV1
  latestPAttrSent : Option PayloadAttributesV1
  latestFcUResponse : Option ForkChoiceResponse
  latestPayloadSent : Option ExecutableDataV1
  latestPayloadStatusReponse : Option PayloadStatusV1
  authHeader : Option String
deriving DecidableEq, Repr

/-- Outcome of one engine call method: the client state after the call,
the returned result value (the Go zero value when the remote call
errored and left `result` unwritten), the returned error, and whether
the remote `CallContext` invocation was reached at all. -/
structure EngineCallResult (R : Type) where
  state : ClientState
  result : R
  err : Option String
  networkAttempted : Bool
deriving DecidableEq, Repr

/-- Method `PrepareAuthCallToken` (lines 279-286).  `sign` is the outcome of
`GetNewToken` for the given secret and current time (the jwt library
is external; its only observable outcomes here are a token string or a
signing error).  On success the Authorization header is set; on failure
the error is returned and the header is left unchanged. -/
def PrepareAuthCallToken (st : ClientState) (sign : Except String String) :
    ClientState × Option String :=
  match sign with
  | .error e => (st, some e)
  | .ok tok => ({ st with authHeader := some ( "Bearer " ++ tok) }, none)

/-- Method `PrepareDefaultAuthCallToken` (lines 288-291).  The source calls
`PrepareAuthCallToken` and discards its returned error, always
returning nil. -/
def PrepareDefaultAuthCallToken (st : ClientState) (sign : Except String String) :
    ClientState × Option String :=
  ((PrepareAuthCallToken st sign).1, none)

/-- Method `ForkchoiceUpdatedV1` (lines 294-304).  `call` is the transport
outcome of `CallContext` on `engine_forkchoiceUpdatedV1`: on error the
local `result` keeps its zero value.  The request fields are written
before the remote call and `latestFcUResponse` is written after it,
regardless of the call's error. -/
def ForkchoiceUpdatedV1 (st : ClientState) (fcState : Option ForkchoiceStateV1)
    (pAttributes : Option PayloadAttributesV1) (sign : Except String String)
    (call : Except String ForkChoiceResponse) : EngineCallResult ForkChoiceResponse :=
  let prep := PrepareDefaultAuthCallToken st sign
  match prep.2 with
  | some e => ⟨prep.1, default, some e, false⟩
  | none =>
    let st1 := { prep.1 with latestFcUStateSent := fcState, latestPAttrSent := pAttributes }
    match call with
    | .ok r => ⟨{ st1 with latestFcUResponse := some r }, r, none, true⟩
    | .error e => ⟨{ st1 with latestFcUResponse := some default }, default, some e, true⟩

/-- Method `GetPayloadV1` (lines 306-313): token preparation, then the remote
call; nothing is recorded in call memory. -/
def GetPayloadV1 (st : ClientState) (payloadId : Option PayloadID)
    (sign : Except String String)
    (call : Except String ExecutableDataV1) : EngineCallResult ExecutableDataV1 :=
  let prep := PrepareDefaultAuthCallToken st sign
  match prep.2 with
  | some e => ⟨prep.1, default, some e, false⟩
  | none =>
    match call with
    | .ok r => ⟨prep.1, r, none, true⟩
    | .error e => ⟨prep.1, default, some e, true⟩

/-- Method `NewPayloadV1` (lines 315-324).  `latestPayloadSent` is written
before the remote call and `latestPayloadStatusReponse` after it,
regardless of the call's error. -/
def NewPayloadV1 (st : ClientState) (payload : Option ExecutableDataV1)
    (sign : Except String String)
    (call : Except String PayloadStatusV1) : EngineCallResult PayloadStatusV1 :=
  let prep := PrepareDefaultAuthCallToken st sign
  match prep.2 with
  | some e => ⟨prep.1, default, some e, false⟩
  | none =>
    let st1 := { prep.1 with latestPayloadSent := payload }
    match call with
    | .ok r => ⟨{ st1 with latestPayloadStatusReponse := some r }, r, none, true⟩
    | .error e => ⟨{ st1 with latestPayloadStatusReponse := some default }, default, some e, true⟩

/-- Method `ExchangeTransitionConfigurationV1` (lines 326-330): unauthenticated,
no token preparation, nothing recorded in call memory. -/
def ExchangeTransitionConfigurationV1 (st : ClientState)
    (tConf : Option TransitionConfigurationV1)
    (call : Except String TransitionConfigurationV1) :
    EngineCallResult TransitionConfigurationV1 :=
  match call with
  | .ok r => ⟨st, r, none, true⟩
  | .error e => ⟨st, default, some e, true⟩

/-- Accessor `LatestForkchoiceSent` (lines 367-369). -/
def LatestForkchoiceSent (st : ClientState) :
    Option ForkchoiceStateV1 × Option PayloadAttributesV1 :=
  (st.latestFcUStateSent, st.latestPAttrSent)

/-- Accessor `LatestNewPayloadSent` (lines 371-373). -/
def LatestNewPayloadSent (st : ClientState) : Option ExecutableDataV1 :=
  st.latestPayloadSent

/-- Accessor `LatestForkchoiceResponse` (lines 375-377). -/
def LatestForkchoiceResponse (st : ClientState) : Option ForkChoiceResponse :=
  st.latestFcUResponse

/-- Accessor `LatestNewPayloadResponse` (lines 378-380). -/
def LatestNewPayloadResponse (st : ClientState) : Option PayloadStatusV1 :=
  st.latestPayloadStatusReponse

/-! Section: total difficulty (lines 233-259).

`TotalDifficultyHeader` embeds `types.Header` and a `TD` struct with the
single field `TotalDifficulty *hexutil.Big` (json key
`totalDifficulty`); its `UnmarshalJSON` decodes the same raw bytes
twice, first into the header, then into `TD`. -/

/-- The raw JSON block object as far as the two decode passes observe
it.  `headerFields` is the outcome of `json.Unmarshal` into
`types.Header` (go-ethereum's generated decoder, which errors on a
missing required header field or malformed data).  `tdField` is what
the `totalDifficulty` key holds: absent, a well-formed quantity, or
malformed.  Per `encoding/json` semantics, decoding into
`TD{TotalDifficulty *hexutil.Big}` leaves the pointer nil — with no
error — when the key is absent. -/
inductive TDField where
  | absent
  | present (v : Int)
  | malformed (msg : String)
deriving DecidableEq, Repr

/-- A raw, non-null JSON response body for `eth_getBlockByNumber`. -/
structure RawBlockJSON where
  headerFields : Except String Header
  tdField : TDField
deriving Repr

/-- The decoded `TotalDifficultyHeader`: the embedded header and the
`TD.TotalDifficulty` pointer (`none` = nil). -/
structure TotalDifficultyHeader where
  header : Header
  TotalDifficulty : Option Int
deriving DecidableEq, Repr

/-- Method `TotalDifficultyHeader.UnmarshalJSON` (lines 242-250): first pass
decodes the header fields (propagating its error), second pass decodes
the `TD` struct from the same data (an absent key is not an error and
leaves the pointer nil). -/
def TotalDifficultyHeader.UnmarshalJSON (raw : RawBlockJSON) :
    Except String TotalDifficultyHeader :=
  match raw.headerFields with
  | .error e => .error e
  | .ok h =>
    match raw.tdField with
    | .malformed msg => .error msg
    | .absent => .ok ⟨h, none⟩
    | .present v => .ok ⟨h, some v⟩

/-- Method `GetTotalDifficulty` (lines 252-259).  `call` is the transport
outcome of `CallContext`, which on success hands the raw body to
`TotalDifficultyHeader.UnmarshalJSON` and surfaces its error as the
call error.  On a nil error the Go code returns
`td.TotalDifficulty.ToInt()`, where `ToInt` on a nil `*hexutil.Big` is
a pointer conversion yielding a nil `*big.Int` (`none`) — not a panic
and not an error.  (A JSON-null result body, which would leave `td`
itself nil, is outside this model; the claims address the
missing-field and well-formed shapes.) -/
def GetTotalDifficulty (call : Except String RawBlockJSON) :
    Except String (Option Int) :=
  match call with
  | .error e => .error e
  | .ok raw =>
    match TotalDifficultyHeader.UnmarshalJSON raw with
    | .error e => .error e
    | .ok td => .ok td.TotalDifficulty

/-! Section: JWT token minting (GetNewToken, lines 268-277) -/

/-- The JWT built by `GetNewToken`, represented by the data that
determines the signed string.  The jwt library (third-party,
`golang-jwt/jwt/v4`) serialises the header (fixed, HS256) and the
claims map deterministically (JSON with sorted keys) and signs with
HMAC-SHA256, a deterministic function of (secret, message); so the
signed token string is determined by the algorithm, the claims and the
secret, which is what this structure carries. -/
structure SignedToken where
  alg : String
  claims : List (String × Int)
  secret : List Nat
deriving DecidableEq, Repr

/-- Function `GetNewToken` (lines 268-277): builds a token with the single claim
`iat = iat.Unix()` (the issue time in Unix seconds, here `iatUnix`) and
signs it with the secret bytes.  With a byte-slice secret the HS256
signing path of the jwt library cannot fail (it errors only on a
non-byte-slice key or an unavailable hash), so the `Except` error case
— which the Go signature does surface and lines 272-275 propagate — is
never produced here. -/
def GetNewToken (jwtSecretBytes : List Nat) (iatUnix : Int) :
    Except String SignedToken :=
  .ok { alg := "HS256", claims := [( "iat", iatUnix)], secret := jwtSecretBytes }

/-! Section: helper lemmas about the hexadecimal encoding -/

/-- The hex digit list of a natural number is never empty. -/
theorem natToHex_ne_nil (n : Nat) : natToHex n ≠ [] := by
  unfold natToHex
  split
  · simp
  · simp

/-- A nonzero hex digit value yields a character other than the zero
digit. -/
theorem hexDigitChar_ne_zero (n : Nat) (h1 : n ≠ 0) (h2 : n < 16) :
    hexDigitChar n ≠ '0' := by
  interval_cases n <;> simp_all [hexDigitChar]

/-- The leading hex digit of a positive natural number is never the
zero digit: the encoding is minimal. -/
theorem natToHex_head_ne_zero (n : Nat) (hn : n ≠ 0) :
    (natToHex n).head? ≠ some '0' := by
  induction n using Nat.strong_induction_on with
  | _ n ih =>
    unfold natToHex
    split
    · next hlt =>
      simp only [List.head?_cons]
      intro hc
      exact hexDigitChar_ne_zero n hn hlt (Option.some.inj hc)
    · next hge =>
      have h16 : 16 ≤ n := by omega
      have hdiv : n / 16 < n := Nat.div_lt_self (by omega) (by omega)
      have hdivne : n / 16 ≠ 0 := by
        have := Nat.div_le_div_right (c := 16) h16
        simp at this
        omega
      have hne := ih (n / 16) hdiv hdivne
      cases hcons : natToHex (n / 16) with
      | nil => exact absurd hcons (natToHex_ne_nil _)
      | cons a l =>
        rw [hcons] at hne
        simp at hne ⊢
        exact hne

/-- The encoding of a non-negative value begins with the characters
`0x`, so it is none of the four sentinel strings. -/
theorem EncodeBig_nonneg_ne_sentinels (m : Nat) :
    EncodeBig (m : Int) ≠ "latest" ∧ EncodeBig (m : Int) ≠ "pending" ∧
    EncodeBig (m : Int) ≠ "finalized" ∧ EncodeBig (m : Int) ≠ "safe" := by
  unfold EncodeBig
  by_cases h0 : (m : Int) = 0
  · rw [if_pos h0]
    refine ⟨by decide, by decide, by decide, by decide⟩
  · rw [if_neg h0, if_pos (by omega)]
    refine ⟨?_, ?_, ?_, ?_⟩ <;>
      · intro hc
        have hd := congrArg String.data hc
        simp [String.data_append] at hd

/-! Section: the claims -/

/-- C7: for every header-by-number lookup, a transport error is returned
verbatim; a successful call with an empty result fails with the
distinguished `NotFound` error, which is distinct from every transport
error; a successful call with a header returns it with a nil error. -/
theorem HeaderByNumber_notFound_distinct :
    (∀ e, HeaderByNumber (.error e) = (none, some (.transport e))) ∧
    HeaderByNumber (.ok none) = (none, some .notFound) ∧
    (∀ h, HeaderByNumber (.ok (some h)) = (some h, none)) ∧
    (∀ e, RpcError.notFound ≠ RpcError.transport e) := by
  refine ⟨fun e => rfl, rfl, fun h => rfl, fun e hc => ?_⟩
  cases hc

/-- C10: whenever `HeaderByNumber` returns a nil error the returned
header is present, and consequently `GetNextAccountNonce` — whose only
nil-header dereference would be the `none` result — never dereferences
an absent header, on any input. -/
theorem HeaderByNumber_success_header_present :
    (∀ call, (HeaderByNumber call).2 = none →
      ((HeaderByNumber call).1).isSome = true) ∧
    (∀ (m : AddrMap) (account : Address) (headCall : Except String (Option Header))
        (nonceAt : Int → Except String Nat),
      (GetNextAccountNonce m account headCall nonceAt).isSome = true) := by
  constructor
  · intro call h
    rcases call with e | hOpt
    · simp [HeaderByNumber] at h
    · rcases hOpt with _ | hd
      · simp [HeaderByNumber] at h
      · simp [HeaderByNumber]
  · intro m account headCall nonceAt
    rcases headCall with e | hOpt
    · simp [GetNextAccountNonce, HeaderByNumber]
    · rcases hOpt with _ | hd
      · simp [GetNextAccountNonce, HeaderByNumber]
      · simp only [GetNextAccountNonce, HeaderByNumber]
        rcases hfind : mapFind m account with _ | info
        · rcases hnc : nonceAt hd.number with e | n <;> simp [hnc]
        · by_cases hb : info.PreviousBlock = hd.hash ∨ info.PreviousBlock = hd.parentHash
          · simp [hb]
          · rcases hnc : nonceAt hd.number with e | n <;> simp [hb, hnc]

/-- C10 witness: a concrete successful head lookup has a present
header. -/
theorem HeaderByNumber_success_header_present_witness :
    (HeaderByNumber (.ok (some ⟨1, 0, 5⟩))).2 = none ∧
    ((HeaderByNumber (.ok (some ⟨1, 0, 5⟩))).1).isSome = true :=
  ⟨rfl, HeaderByNumber_success_header_present.1 (.ok (some ⟨1, 0, 5⟩)) rfl⟩

/-- C5: the block-number encoding maps nil to `latest` and the three
negative sentinels to `pending`, `finalized` and `safe`; every other
value encodes through `EncodeBig` as a big-endian hex integer whose
leading digit is never the zero digit; and no non-negative block height
encodes to any of the four sentinel strings. -/
theorem toBlockNumArg_encoding (n : Int) (m : Nat) :
    toBlockNumArg none = "latest" ∧
    toBlockNumArg (some Pending) = "pending" ∧
    toBlockNumArg (some Finalized) = "finalized" ∧
    toBlockNumArg (some Safe) = "safe" ∧
    (n ≠ Pending → n ≠ Finalized → n ≠ Safe → toBlockNumArg (some n) = EncodeBig n) ∧
    (m ≠ 0 → (natToHex m).head? ≠ some '0') ∧
    (toBlockNumArg (some (m : Int)) ≠ "latest" ∧
     toBlockNumArg (some (m : Int)) ≠ "pending" ∧
     toBlockNumArg (some (m : Int)) ≠ "finalized" ∧
     toBlockNumArg (some (m : Int)) ≠ "safe") := by
  refine ⟨rfl, rfl, rfl, rfl, ?_, natToHex_head_ne_zero m, ?_⟩
  · intro h2 h3 h4
    simp [toBlockNumArg, h2, h3, h4]
  · have e2 : (m : Int) ≠ Pending := by unfold Pending; omega
    have e3 : (m : Int) ≠ Finalized := by unfold Finalized; omega
    have e4 : (m : Int) ≠ Safe := by unfold Safe; omega
    have harg : toBlockNumArg (some (m : Int)) = EncodeBig (m : Int) := by
      simp [toBlockNumArg, e2, e3, e4]
    rw [harg]
    exact EncodeBig_nonneg_ne_sentinels m

/-- C5 witness: the hypothetical conjuncts at the concrete height 255,
whose encoding is `0xff`. -/
theorem toBlockNumArg_encoding_witness :
    toBlockNumArg (some 255) = EncodeBig 255 ∧ (natToHex 255).head? ≠ some '0' :=
  ⟨(toBlockNumArg_encoding 255 255).2.2.2.2.1 (by decide) (by decide) (by decide),
   (toBlockNumArg_encoding 255 255).2.2.2.2.2.1 (by decide)⟩

/-- C6 counterexample: a concrete response whose header decodes cleanly
but which lacks the `totalDifficulty` field makes `GetTotalDifficulty`
return success carrying a nil integer — it does not fail, so the
missing-field lookup is not an error distinct from success. -/
theorem GetTotalDifficulty_missing_field_is_ok :
    GetTotalDifficulty (.ok ⟨.ok ⟨1, 0, 0⟩, .absent⟩) = .ok none := rfl

/-- C6 (amended): a response lacking the extra cumulative-difficulty
field yields success with a nil integer — distinguishable from a
well-formed response only by the nil result, not by an error — while a
well-formed response returns the decoded integer; transport and
header-decode errors are propagated as errors. -/
theorem GetTotalDifficulty_missing_vs_wellformed (h : Header) (v : Int) (e : String) :
    GetTotalDifficulty (.ok ⟨.ok h, .absent⟩) = .ok none ∧
    GetTotalDifficulty (.ok ⟨.ok h, .present v⟩) = .ok (some v) ∧
    GetTotalDifficulty (.error e) = .error e ∧
    GetTotalDifficulty (.ok ⟨.error e, .absent⟩) = .error e ∧
    GetTotalDifficulty (.ok ⟨.ok h, .malformed e⟩) = .error e := by
  refine ⟨rfl, rfl, rfl, rfl, rfl⟩

/-- C1: with a successful head lookup, if a cache entry exists for the
account and its recorded head equals the current head's hash or parent
hash, the cached nonce is incremented by one (within `uint64` range),
the entry is re-bound to the current head's hash and the incremented
nonce is returned with no authoritative lookup; otherwise — no entry,
or a recorded head that matches neither — the authoritative lookup at
the current head's number is performed, stored as a fresh entry bound
to the current head's hash, and returned. -/
theorem GetNextAccountNonce_cache_decision (m : AddrMap) (account : Address)
    (head : Header) (nonceAt : Int → Except String Nat) :
    (∀ info, mapFind m account = some info →
      info.PreviousBlock = head.hash ∨ info.PreviousBlock = head.parentHash →
      info.PreviousNonce + 1 < 2 ^ 64 →
      GetNextAccountNonce m account (.ok (some head)) nonceAt =
        some ⟨info.PreviousNonce + 1, none,
          mapSet m account ⟨head.hash, info.PreviousNonce + 1⟩, false⟩) ∧
    ((mapFind m account = none ∨
        ∃ info, mapFind m account = some info ∧
          info.PreviousBlock ≠ head.hash ∧ info.PreviousBlock ≠ head.parentHash) →
      ∀ n, nonceAt head.number = .ok n →
        GetNextAccountNonce m account (.ok (some head)) nonceAt =
          some ⟨n, none, mapSet m account ⟨head.hash, n⟩, true⟩) := by
  constructor
  · intro info hfind hfresh hlt
    simp only [GetNextAccountNonce, HeaderByNumber, hfind]
    rw [if_pos hfresh, Nat.mod_eq_of_lt hlt]
  · intro hmiss n hok
    simp only [GetNextAccountNonce, HeaderByNumber]
    rcases hmiss with hnone | ⟨info, hfind, h1, h2⟩
    · rw [hnone, hok]
    · have hcond : ¬(info.PreviousBlock = head.hash ∨
          info.PreviousBlock = head.parentHash) := by
        simp [h1, h2]
      simp [hfind, if_neg hcond, hok]

/-- C1 witness: a one-entry cache whose recorded head is the current
head's parent increments the cached nonce 7 to 8 with no lookup. -/
theorem GetNextAccountNonce_cache_decision_witness :
    GetNextAccountNonce [(1, ⟨100, 7⟩)] 1 (.ok (some ⟨200, 100, 5⟩)) (fun _ => .ok 3) =
      some ⟨8, none, [(1, ⟨200, 8⟩)], false⟩ :=
  (GetNextAccountNonce_cache_decision [(1, ⟨100, 7⟩)] 1 ⟨200, 100, 5⟩ (fun _ => .ok 3)).1
    ⟨100, 7⟩ rfl (Or.inr rfl) (by norm_num)

/-- C4: a failing head lookup (transport error, or an empty result
turned into the `NotFound` error) propagates that error with the cache
untouched; a failing authoritative nonce lookup propagates its error
with the cache untouched. -/
theorem GetNextAccountNonce_error_propagation (m : AddrMap) (account : Address)
    (nonceAt : Int → Except String Nat) :
    (∀ e, GetNextAccountNonce m account (.error e) nonceAt =
      some ⟨0, some (.transport e), m, false⟩) ∧
    GetNextAccountNonce m account (.ok none) nonceAt =
      some ⟨0, some .notFound, m, false⟩ ∧
    (∀ head e,
      (mapFind m account = none ∨
        ∃ info, mapFind m account = some info ∧
          info.PreviousBlock ≠ head.hash ∧ info.PreviousBlock ≠ head.parentHash) →
      nonceAt head.number = .error e →
      GetNextAccountNonce m account (.ok (some head)) nonceAt =
        some ⟨0, some (.transport e), m, true⟩) := by
  refine ⟨fun e => rfl, rfl, ?_⟩
  intro head e hmiss herr
  simp only [GetNextAccountNonce, HeaderByNumber]
  rcases hmiss with hnone | ⟨info, hfind, h1, h2⟩
  · rw [hnone, herr]
  · have hcond : ¬(info.PreviousBlock = head.hash ∨
        info.PreviousBlock = head.parentHash) := by
      simp [h1, h2]
    simp [hfind, if_neg hcond, herr]

/-- C4 witness: a failing authoritative lookup on a cache-miss returns
the transport error and leaves the (empty) cache unchanged. -/
theorem GetNextAccountNonce_error_propagation_witness :
    GetNextAccountNonce [] 1 (.ok (some ⟨2, 1, 0⟩)) (fun _ => .error "boom") =
      some ⟨0, some (.transport "boom"), [], true⟩ :=
  (GetNextAccountNonce_error_propagation [] 1 (fun _ => .error "boom")).2.2
    ⟨2, 1, 0⟩ "boom" (Or.inl rfl) rfl

/-- C2: every forkchoice-update call overwrites the latest-sent state
and attributes with its request and the latest-response field with its
raw response, and every new-payload call does the same for its request
and response — for every remote outcome, including an error (where the
recorded raw response is the zero value the remote call left behind);
the remote call is always reached, and afterwards the accessors reflect
exactly this most recent call. -/
theorem callMemory_overwritten_unconditionally (st : ClientState)
    (fcState : Option ForkchoiceStateV1) (pAttributes : Option PayloadAttributesV1)
    (payload : Option ExecutableDataV1) (sign1 sign2 : Except String String)
    (fcCall : Except String ForkChoiceResponse)
    (npCall : Except String PayloadStatusV1) :
    LatestForkchoiceSent (ForkchoiceUpdatedV1 st fcState pAttributes sign1 fcCall).state =
      (fcState, pAttributes) ∧
    LatestForkchoiceResponse (ForkchoiceUpdatedV1 st fcState pAttributes sign1 fcCall).state =
      some (ForkchoiceUpdatedV1 st fcState pAttributes sign1 fcCall).result ∧
    (ForkchoiceUpdatedV1 st fcState pAttributes sign1 fcCall).networkAttempted = true ∧
    LatestNewPayloadSent (NewPayloadV1 st payload sign2 npCall).state = payload ∧
    LatestNewPayloadResponse (NewPayloadV1 st payload sign2 npCall).state =
      some (NewPayloadV1 st payload sign2 npCall).result ∧
    (NewPayloadV1 st payload sign2 npCall).networkAttempted = true := by
  rcases sign1 with e1 | t1 <;> rcases sign2 with e2 | t2 <;>
    rcases fcCall with ef | rf <;> rcases npCall with en | rn <;>
      simp [ForkchoiceUpdatedV1, NewPayloadV1, PrepareDefaultAuthCallToken,
        PrepareAuthCallToken, LatestForkchoiceSent, LatestForkchoiceResponse,
        LatestNewPayloadSent, LatestNewPayloadResponse]

/-- C9: a get-payload call and an exchange-transition-configuration
call leave every call-memory field (latest forkchoice request and
response, latest new-payload request and response) unchanged; the
configuration exchange leaves the whole client state unchanged. -/
theorem getPayload_exchangeConfig_frame (st : ClientState)
    (payloadId : Option PayloadID) (tConf : Option TransitionConfigurationV1)
    (sign : Except String String) (gpCall : Except String ExecutableDataV1)
    (etCall : Except String TransitionConfigurationV1) :
    ((GetPayloadV1 st payloadId sign gpCall).state.latestFcUStateSent =
        st.latestFcUStateSent ∧
      (GetPayloadV1 st payloadId sign gpCall).state.latestPAttrSent =
        st.latestPAttrSent ∧
      (GetPayloadV1 st payloadId sign gpCall).state.latestFcUResponse =
        st.latestFcUResponse ∧
      (GetPayloadV1 st payloadId sign gpCall).state.latestPayloadSent =
        st.latestPayloadSent ∧
      (GetPayloadV1 st payloadId sign gpCall).state.latestPayloadStatusReponse =
        st.latestPayloadStatusReponse) ∧
    (ExchangeTransitionConfigurationV1 st tConf etCall).state = st := by
  rcases sign with e1 | t1 <;> rcases gpCall with e2 | r2 <;> rcases etCall with e3 | r3 <;>
    simp [GetPayloadV1, ExchangeTransitionConfigurationV1,
      PrepareDefaultAuthCallToken, PrepareAuthCallToken]

/-- C3: evaluation of the code at the failing input.  When token
signing fails, `PrepareDefaultAuthCallToken` nevertheless returns nil
(lines 288-291 discard the error that `PrepareAuthCallToken` returns),
so each privileged call proceeds to its remote invocation: the network
is attempted, and the returned error is the remote call's outcome — in
particular nil on a successful remote call — never the signing error.
This contradicts the claim that a signing failure surfaces as an
authorization error before any network I/O. -/
theorem signingFailure_still_reaches_network (st : ClientState)
    (fcState : Option ForkchoiceStateV1) (pAttributes : Option PayloadAttributesV1)
    (payload : Option ExecutableDataV1) (payloadId : Option PayloadID)
    (e : String) (r : ForkChoiceResponse) (rp : PayloadStatusV1)
    (rg : ExecutableDataV1) :
    (PrepareDefaultAuthCallToken st (.error e)).2 = none ∧
    (ForkchoiceUpdatedV1 st fcState pAttributes (.error e) (.ok r)).networkAttempted = true ∧
    (ForkchoiceUpdatedV1 st fcState pAttributes (.error e) (.ok r)).err = none ∧
    (ForkchoiceUpdatedV1 st fcState pAttributes (.error e) (.ok r)).result = r ∧
    (NewPayloadV1 st payload (.error e) (.ok rp)).networkAttempted = true ∧
    (NewPayloadV1 st payload (.error e) (.ok rp)).err = none ∧
    (GetPayloadV1 st payloadId (.error e) (.ok rg)).networkAttempted = true ∧
    (GetPayloadV1 st payloadId (.error e) (.ok rg)).err = none := by
  refine ⟨rfl, ?_, ?_, ?_, ?_, ?_, ?_, ?_⟩ <;>
    simp [ForkchoiceUpdatedV1, NewPayloadV1, GetPayloadV1,
      PrepareDefaultAuthCallToken, PrepareAuthCallToken]

/-- C8: token minting is a pure function of the pair (secret, issue
time) — equal secret bytes and equal issue time give equal tokens —
and the minted token carries exactly one claim, the issue timestamp,
under the HS256 algorithm. -/
theorem GetNewToken_pure_single_claim (s1 s2 : List Nat) (t1 t2 : Int) :
    (s1 = s2 → t1 = t2 → GetNewToken s1 t1 = GetNewToken s2 t2) ∧
    GetNewToken s1 t1 =
      .ok { alg := "HS256", claims := [( "iat", t1)], secret := s1 } ∧
    (∀ tok, GetNewToken s1 t1 = .ok tok → tok.claims = [( "iat", t1)]) := by
  refine ⟨?_, rfl, ?_⟩
  · intro hs ht
    rw [hs, ht]
  · intro tok htok
    cases htok
    rfl

/-- C8 witness: two mints from the same secret and time agree, and the
token carries the single `iat` claim. -/
theorem GetNewToken_pure_single_claim_witness :
    GetNewToken [1, 2] 99 = GetNewToken [1, 2] 99 ∧
    GetNewToken [1, 2] 99 =
      .ok { alg := "HS256", claims := [( "iat", 99)], secret := [1, 2] } :=
  ⟨(GetNewToken_pure_single_claim [1, 2] [1, 2] 99 99).1 rfl rfl,
   (GetNewToken_pure_single_claim [1, 2] [1, 2] 99 99).2.1⟩

end HiveRPC
